import Mathlib

/-!
Verification of the signal-reconstruction pipeline of `main.py`
(glassdoor review analysis): deduplication of coincident timestamps,
imputation of missing field values, resampling onto a regular hourly
timebase, and the dual-band zero-phase low-pass filter.

Timestamps are modelled as natural numbers counting minutes, so the
script's hourly spacing (`freq="H"`) is a step of 60 and a calendar day
spans 1440 minutes.  Field values are rationals (the script stores them
as floats: `1`, `0.5`, `0`, `-1`).  Fallible stages return `Except`.
-/

/-- Failure conditions of the pipeline.  The script has exactly two
failure points in the core: the whole-set uniqueness assertion after
deduplication (`assert not any(clean["date"].duplicated())`, line 209)
and scipy `filtfilt`'s minimum-length check inside `filt_short` /
`filt_long`.  There is no capacity check in the deduplication loop, so
no further condition exists. -/
inductive PipelineError where
  | DuplicateTimestamp
  | SeriesTooShort
deriving DecidableEq, Repr

/-- Minutes per hour: the deduplication loop and the resampling grid
both use pandas frequency `"H"`. -/
def HOUR : ℕ := 60

/-- Minutes per calendar day. -/
def DAY : ℕ := 24 * HOUR

/-- Calendar day containing a timestamp. -/
def dayOf (t : ℕ) : ℕ := t / DAY

/-- One review record restricted to the pipeline's tracked columns
(`clean_cols = ["date", *TIMELINE_KEYS]`, lines 196-198).  `stars` is
always present (asserted on load, line 95); the other sentiment fields
may be missing (`NaN`), modelled by `Option`. -/
structure Rec where
  date : ℕ
  stars : ℤ
  recommends : Option ℚ
  outlook : Option ℚ
  ceo_opinion : Option ℚ
deriving DecidableEq, Repr

/-- Deduplication of the `date` column, lines 201-206.  The script
selects the rows whose exact timestamp occurs at least twice
(`duplicated(keep=False)`), groups them by that timestamp, and gives
the k-th member of each group (in original row order) the offset of k
hours from the group's timestamp (`pd.date_range(date, periods=len(group),
freq="H")`).  Rows with a unique timestamp are untouched. -/
def dedupDates (ds : List ℕ) : List ℕ :=
  (List.range ds.length).map fun i =>
    let d := ds.getD i 0
    if 2 ≤ ds.count d then d + HOUR * (ds.take i).count d else d

/-- Deduplication followed by the whole-set uniqueness assertion of
line 209: the result is the reassigned timestamps when they are
pairwise distinct, and a `DuplicateTimestamp` failure otherwise. -/
def dedup (ds : List ℕ) : Except PipelineError (List ℕ) :=
  let out := dedupDates ds
  if out.Nodup then .ok out else .error .DuplicateTimestamp

/-- At most `n` records fall on any single calendar day. -/
def maxPerDay (ds : List ℕ) (n : ℕ) : Prop :=
  ∀ d ∈ ds, ds.countP (fun x => dayOf x == dayOf d) ≤ n

instance (ds : List ℕ) (n : ℕ) : Decidable (maxPerDay ds n) := by
  unfold maxPerDay; infer_instance

/-- Relative order of the records of one calendar day is preserved:
whenever record `i` precedes record `j` and both fall on the same
calendar day of the input, the reassigned timestamp of `i` is strictly
below that of `j`. -/
def sameDayOrder (ds out : List ℕ) : Prop :=
  ∀ i j : ℕ, i < j → j < ds.length →
    dayOf (ds.getD i 0) = dayOf (ds.getD j 0) →
    out.getD i 0 < out.getD j 0

/-- Imputation rule of lines 212-213: where `recommends` is missing and
`stars >= 4`, set `recommends = 1`. -/
def inferRecommends (r : Rec) : Rec :=
  if r.recommends = none ∧ 4 ≤ r.stars then { r with recommends := some 1 } else r

/-- Imputation rules of lines 215-217: the missing-mask of `outlook` is
captured once, then where it holds and `stars >= 4` set `outlook = 1`,
and where it holds and `stars <= 2` set `outlook = -1`. -/
def inferOutlook (r : Rec) : Rec :=
  let missing := r.outlook = none
  let r1 := if missing ∧ 4 ≤ r.stars then { r with outlook := some 1 } else r
  if missing ∧ r.stars ≤ 2 then { r1 with outlook := some (-1) } else r1

/-- Default fills of lines 220-222: remaining missing `recommends`
become `0.5`, remaining missing `outlook` and `ceo_opinion` become
`0`. -/
def fillnaDefaults (r : Rec) : Rec :=
  { r with
    recommends := some (r.recommends.getD (1/2)),
    outlook := some (r.outlook.getD 0),
    ceo_opinion := some (r.ceo_opinion.getD 0) }

/-- The whole imputation block (lines 211-222) as it acts on one
record: the `recommends` star rule, then the `outlook` star rules, then
the constant defaults.  The block contains no failure path. -/
def impute (r : Rec) : Rec := fillnaDefaults (inferOutlook (inferRecommends r))

/-- Imputation of the whole record set: the column-wise pandas
assignments act independently on each row. -/
def imputeAll (rs : List Rec) : List Rec := rs.map impute

/-- Smallest timestamp of a record set (`clean["date"].min()`,
line 227); 0 on the empty set, which the script never queries. -/
def listMin : List ℕ → ℕ
  | [] => 0
  | x :: xs => xs.foldl min x

/-- Largest timestamp of a record set (`clean["date"].max()`,
line 228). -/
def listMax : List ℕ → ℕ
  | [] => 0
  | x :: xs => xs.foldl max x

/-- Regular hourly grid from `t0` to `tEnd`
(`pd.date_range(start=start, end=end, freq="H")`, line 231): the
timestamps `t0, t0+60, t0+120, …` not exceeding `tEnd`. -/
def interpGridFrom (t0 tEnd : ℕ) : List ℕ :=
  (List.range ((tEnd - t0) / HOUR + 1)).map fun i => t0 + HOUR * i

/-- The resampling grid of the script, anchored at the deduplicated
record set's minimum timestamp and ending at its maximum. -/
def interpGrid (ds : List ℕ) : List ℕ :=
  interpGridFrom (listMin ds) (listMax ds)

/-- Piecewise-linear interpolation in the manner of `np.interp`
(`do_interp`, lines 239-240), over a list of (abscissa, ordinate)
pairs with increasing abscissas: clamp to the first ordinate before the
first point and to the last ordinate after the last point, and
interpolate linearly in between. -/
def npInterp (x : ℚ) : List (ℚ × ℚ) → ℚ
  | [] => 0
  | [(_, y0)] => y0
  | (x0, y0) :: (x1, y1) :: ps =>
    if x < x0 then y0
    else if x < x1 then y0 + (y1 - y0) * (x - x0) / (x1 - x0)
    else npInterp x ((x1, y1) :: ps)

/-- Dot product of the leading elements of two coefficient lists. -/
def dotQ : List ℚ → List ℚ → ℚ
  | [], _ => 0
  | _, [] => 0
  | p :: ps, q :: qs => p * q + dotQ ps qs

/-- Recursion of the direct-form difference equation
`a0*y[n] = b0*x[n] + b1*x[n-1] + ... - a1*y[n-1] - a2*y[n-2] - ...`,
carrying the reversed input and output histories. -/
def lfilterGo (b a : List ℚ) : List ℚ → List ℚ → List ℚ → List ℚ
  | [], _, _ => []
  | x :: xs, xh, yh =>
    let xh' := x :: xh
    let y := (dotQ b xh' - dotQ a.tail yh) / a.headD 1
    y :: lfilterGo b a xs xh' (y :: yh)

/-- Causal IIR filtering of a series with numerator `b` and denominator
`a` (scipy `lfilter` with zero initial state). -/
def lfilter (b a x : List ℚ) : List ℚ := lfilterGo b a x [] []

/-- Odd extension of a series by `n` points at each end, as scipy
`filtfilt` pads its input: the series is reflected through its first
and last points. -/
def oddExt (n : ℕ) (x : List ℚ) : List ℚ :=
  let x0 := x.headD 0
  let xe := x.getLastD 0
  let left := (List.range n).map fun i => 2 * x0 - x.getD (n - i) 0
  let right := (List.range n).map fun i => 2 * xe - x.getD (x.length - 2 - i) 0
  left ++ x ++ right

/-- Zero-phase forward-backward filtering in the manner of scipy
`filtfilt` with its default padding: the input must be strictly longer
than `3 * max(len(b), len(a))` (scipy raises `ValueError` otherwise —
the `SeriesTooShort` condition); a valid input is odd-extended,
filtered forward, reversed, filtered again, reversed back and the
padding stripped.  (Scipy seeds each pass with `lfilter_zi` initial
conditions; this model uses zero initial state, which no claim proved
here depends on — only the length guard and the forward-backward
structure are load-bearing.) -/
def filtfilt (b a x : List ℚ) : Except PipelineError (List ℚ) :=
  let edge := 3 * max b.length a.length
  if x.length ≤ edge then .error .SeriesTooShort
  else
    let ext := oddExt edge x
    let y1 := lfilter b a ext
    let y2 := (lfilter b a y1.reverse).reverse
    .ok ((y2.drop edge).take x.length)

/-- Fixed order of the two Butterworth designs (`FILT_ORDER = 2`,
line 70).  scipy `butter(N, wn)` returns numerator and denominator
coefficient lists of length `N + 1`. -/
def FILT_ORDER : ℕ := 2

/-- Short-trend cutoff period in hours (`FILT_SHORT_HOURS`, line 68):
two weeks. -/
def FILT_SHORT_HOURS : ℚ := 24 * 365 / 52 * 2

/-- Long-trend cutoff period in hours (`FILT_LONG_HOURS`, line 69):
two months. -/
def FILT_LONG_HOURS : ℚ := 24 * 365 / 12 * 2

/-! ## Helper lemmas about the imputation block -/

theorem fillna_recommends (r : Rec) :
    (fillnaDefaults r).recommends = some (r.recommends.getD (1/2)) := rfl

theorem fillna_outlook (r : Rec) :
    (fillnaDefaults r).outlook = some (r.outlook.getD 0) := rfl

theorem fillna_ceo (r : Rec) :
    (fillnaDefaults r).ceo_opinion = some (r.ceo_opinion.getD 0) := rfl

theorem inferRecommends_outlook (r : Rec) : (inferRecommends r).outlook = r.outlook := by
  unfold inferRecommends; split_ifs <;> rfl

theorem inferRecommends_stars (r : Rec) : (inferRecommends r).stars = r.stars := by
  unfold inferRecommends; split_ifs <;> rfl

theorem inferRecommends_ceo (r : Rec) :
    (inferRecommends r).ceo_opinion = r.ceo_opinion := by
  unfold inferRecommends; split_ifs <;> rfl

theorem inferOutlook_recommends (r : Rec) : (inferOutlook r).recommends = r.recommends := by
  simp only [inferOutlook]; split_ifs <;> rfl

theorem inferOutlook_ceo (r : Rec) : (inferOutlook r).ceo_opinion = r.ceo_opinion := by
  simp only [inferOutlook]; split_ifs <;> rfl

theorem inferRecommends_recommends (r : Rec) :
    (inferRecommends r).recommends =
      if r.recommends = none ∧ 4 ≤ r.stars then some 1 else r.recommends := by
  unfold inferRecommends; split_ifs <;> rfl

theorem inferOutlook_outlook (r : Rec) :
    (inferOutlook r).outlook =
      if r.outlook = none ∧ r.stars ≤ 2 then some (-1)
      else if r.outlook = none ∧ 4 ≤ r.stars then some 1
      else r.outlook := by
  simp only [inferOutlook]; split_ifs <;> rfl

/-- Value the whole imputation block leaves in `recommends`: an
observed value is kept; a missing one becomes `1` exactly when
`stars >= 4` and `0.5` otherwise. -/
theorem impute_recommends_eq (r : Rec) :
    (impute r).recommends =
      some (match r.recommends with
            | some v => v
            | none => if 4 ≤ r.stars then 1 else 1/2) := by
  have h1 : (impute r).recommends = some ((inferRecommends r).recommends.getD (1/2)) := by
    rw [impute, fillna_recommends, inferOutlook_recommends]
  rw [h1, inferRecommends_recommends]
  rcases hr : r.recommends with _ | v
  · by_cases h4 : (4:ℤ) ≤ r.stars <;> simp [h4]
  · simp

/-- Value the whole imputation block leaves in `outlook`: an observed
value is kept; a missing one becomes `1` when `stars >= 4`, `-1` when
`stars <= 2`, and `0` otherwise. -/
theorem impute_outlook_eq (r : Rec) :
    (impute r).outlook =
      some (match r.outlook with
            | some v => v
            | none => if 4 ≤ r.stars then 1 else if r.stars ≤ 2 then -1 else 0) := by
  have h1 : (impute r).outlook = some ((inferOutlook (inferRecommends r)).outlook.getD 0) := by
    rw [impute, fillna_outlook]
  rw [h1, inferOutlook_outlook, inferRecommends_outlook, inferRecommends_stars]
  rcases ho : r.outlook with _ | v
  · by_cases h4 : (4:ℤ) ≤ r.stars <;> by_cases h2 : r.stars ≤ 2
    · exact absurd h4 (by omega)
    · simp [h4, h2]
    · simp [h4, h2]
    · simp [h4, h2]
  · simp

/-- Value the whole imputation block leaves in `ceo_opinion`: an
observed value is kept and a missing one becomes `0`. -/
theorem impute_ceo_eq (r : Rec) :
    (impute r).ceo_opinion = some (r.ceo_opinion.getD 0) := by
  rw [impute, fillna_ceo, inferOutlook_ceo, inferRecommends_ceo]

/-! ## Claim theorems: imputation -/

/-- C1 (counterexample): the claimed outlook rule for a missing
`recommends` does not exist in the code.  A record with `outlook = -1`,
`recommends` missing and `stars = 3` ends with `recommends = 0.5` (the
unknown default), not with `recommends = no` (`0`) as the claim
requires. -/
theorem recommends_ignores_outlook_cex :
    (impute { date := 0, stars := 3, recommends := none,
              outlook := some (-1), ceo_opinion := none }).recommends = some (1/2) ∧
    (impute { date := 0, stars := 3, recommends := none,
              outlook := some (-1), ceo_opinion := none }).recommends ≠ some 0 := by
  constructor
  · rw [impute_recommends_eq]; norm_num
  · rw [impute_recommends_eq]; norm_num

/-- C1 (amended): a missing `recommends` is derived from `stars` alone
— `1` (yes) when `stars >= 4`, else the unknown default `0.5`; the
`outlook` field is never consulted (the filled value is a function of
`stars` only). -/
theorem impute_recommends_from_stars (r : Rec) (h : r.recommends = none) :
    (impute r).recommends = some (if 4 ≤ r.stars then 1 else 1/2) := by
  rw [impute_recommends_eq, h]

/-- Witness for the amended C1 statement at a concrete record. -/
theorem impute_recommends_from_stars_witness :
    (impute { date := 0, stars := 5, recommends := none,
              outlook := some 0, ceo_opinion := none }).recommends = some 1 := by
  have h := impute_recommends_from_stars
    { date := 0, stars := 5, recommends := none, outlook := some 0, ceo_opinion := none } rfl
  simpa using h

/-- C2 (counterexample): the claimed `recommends`-based rule for a
missing `outlook` does not exist in the code.  A record with
`recommends = yes (1)`, `stars = 1` and `outlook` missing ends with
`outlook = -1` (from the stars rule), not `+1` as the claim requires. -/
theorem outlook_ignores_recommends_cex :
    (impute { date := 0, stars := 1, recommends := some 1,
              outlook := none, ceo_opinion := none }).outlook = some (-1) ∧
    (impute { date := 0, stars := 1, recommends := some 1,
              outlook := none, ceo_opinion := none }).outlook ≠ some 1 := by
  constructor
  · rw [impute_outlook_eq]; norm_num
  · rw [impute_outlook_eq]; norm_num

/-- C2 (amended): a missing `outlook` is derived from `stars` alone —
`+1` when `stars >= 4`, `-1` when `stars <= 2`, else `0`; the
`recommends` field is never consulted (the filled value is a function
of `stars` only). -/
theorem impute_outlook_from_stars (r : Rec) (h : r.outlook = none) :
    (impute r).outlook = some (if 4 ≤ r.stars then 1 else if r.stars ≤ 2 then -1 else 0) := by
  rw [impute_outlook_eq, h]

/-- Witness for the amended C2 statement at a concrete record. -/
theorem impute_outlook_from_stars_witness :
    (impute { date := 0, stars := 1, recommends := none,
              outlook := none, ceo_opinion := none }).outlook = some (-1) := by
  have h := impute_outlook_from_stars
    { date := 0, stars := 1, recommends := none, outlook := none, ceo_opinion := none } rfl
  norm_num at h
  exact h

/-- C8: the imputation block is a total function (`impute` has no
failure path); afterwards every tracked field is populated, and every
filled value lies in its field's domain: a filled `recommends` is `1`
(yes) or `0.5` (unknown), a filled `outlook` is `1`, `0` or `-1`, and a
filled `ceo_opinion` is `0`. -/
theorem impute_total (r : Rec) :
    ((impute r).recommends.isSome ∧ (impute r).outlook.isSome ∧
      (impute r).ceo_opinion.isSome) ∧
    (r.recommends = none →
      (impute r).recommends = some 1 ∨ (impute r).recommends = some (1/2)) ∧
    (r.outlook = none →
      (impute r).outlook = some 1 ∨ (impute r).outlook = some 0 ∨
        (impute r).outlook = some (-1)) ∧
    (r.ceo_opinion = none → (impute r).ceo_opinion = some 0) := by
  refine ⟨⟨?_, ?_, ?_⟩, ?_, ?_, ?_⟩
  · rw [impute_recommends_eq]; rfl
  · rw [impute_outlook_eq]; rfl
  · rw [impute_ceo_eq]; rfl
  · intro h
    rw [impute_recommends_eq, h]
    by_cases h4 : (4:ℤ) ≤ r.stars
    · exact Or.inl (by simp [h4])
    · exact Or.inr (by simp [h4])
  · intro h
    rw [impute_outlook_eq, h]
    by_cases h4 : (4:ℤ) ≤ r.stars
    · exact Or.inl (by simp [h4])
    · by_cases h2 : r.stars ≤ 2
      · exact Or.inr (Or.inr (by simp [h4, h2]))
      · exact Or.inr (Or.inl (by simp [h4, h2]))
  · intro h
    rw [impute_ceo_eq, h]
    rfl

/-- Witness for C8 at a concrete record with all sentiment fields
missing. -/
theorem impute_total_witness :
    ((impute { date := 0, stars := 3, recommends := none,
               outlook := none, ceo_opinion := none }).recommends = some 1 ∨
      (impute { date := 0, stars := 3, recommends := none,
                outlook := none, ceo_opinion := none }).recommends = some (1/2)) ∧
    ((impute { date := 0, stars := 3, recommends := none,
               outlook := none, ceo_opinion := none }).outlook = some 1 ∨
      (impute { date := 0, stars := 3, recommends := none,
                outlook := none, ceo_opinion := none }).outlook = some 0 ∨
      (impute { date := 0, stars := 3, recommends := none,
                outlook := none, ceo_opinion := none }).outlook = some (-1)) ∧
    (impute { date := 0, stars := 3, recommends := none,
              outlook := none, ceo_opinion := none }).ceo_opinion = some 0 := by
  have h := impute_total
    { date := 0, stars := 3, recommends := none, outlook := none, ceo_opinion := none }
  exact ⟨h.2.1 rfl, h.2.2.1 rfl, h.2.2.2 rfl⟩

/-- C10: a missing `recommends` is filled with `1` (yes) exactly when
`stars >= 4` and with the unknown default `0.5` otherwise; it is never
filled with `0` (no), whatever the record's `stars` or `outlook`
values. -/
theorem impute_recommends_never_no (r : Rec) (h : r.recommends = none) :
    (if 4 ≤ r.stars then (impute r).recommends = some 1
     else (impute r).recommends = some (1/2)) ∧
    (impute r).recommends ≠ some 0 := by
  have he := impute_recommends_eq r
  rw [h] at he
  by_cases h4 : (4:ℤ) ≤ r.stars
  · rw [if_pos h4]
    rw [if_pos h4] at he
    exact ⟨he, by rw [he]; simp⟩
  · rw [if_neg h4]
    rw [if_neg h4] at he
    refine ⟨he, by rw [he]; simp⟩

/-- Witness for C10 at a record with low stars and negative outlook:
the fill is the unknown default, not `no`. -/
theorem impute_recommends_never_no_witness :
    (impute { date := 0, stars := 2, recommends := none,
              outlook := some (-1), ceo_opinion := none }).recommends = some (1/2) ∧
    (impute { date := 0, stars := 2, recommends := none,
              outlook := some (-1), ceo_opinion := none }).recommends ≠ some 0 := by
  have h := impute_recommends_never_no
    { date := 0, stars := 2, recommends := none, outlook := some (-1), ceo_opinion := none } rfl
  norm_num at h
  exact h

/-! ## Claim theorems: deduplication -/

/-- C3 (counterexample): 25 records on one calendar day exceed the 24
hourly sub-day slots, yet the Deduplicator does not fail at all — there
is no `CapacityExceeded` condition in the code.  The run is assigned
hourly offsets `0h..24h`, the last of which spills past midnight, all
timestamps stay distinct, and the whole-set uniqueness assertion
passes. -/
theorem dedup_over_capacity_no_failure :
    ¬ maxPerDay (List.replicate 25 0) 24 ∧
    dedup (List.replicate 25 0) = .ok ((List.range 25).map fun i => HOUR * i) := by
  constructor
  · decide
  · rfl

/-- C3 (amended): on a day's run longer than the 24 hourly slots the
Deduplicator raises no capacity condition; it assigns hourly offsets
that spill past the day boundary (the 25th record of day 0 lands on
day 1), and a failure occurs only through the final whole-set
uniqueness assertion (`DuplicateTimestamp`) when the spilled timestamp
collides with another record, here one originally at the next
midnight. -/
theorem dedup_over_capacity_spills :
    dedup (List.replicate 25 0) = .ok ((List.range 25).map fun i => HOUR * i) ∧
    dayOf (((List.range 25).map fun i => HOUR * i).getD 24 0) = 1 ∧
    dedup (List.replicate 25 0 ++ [DAY]) = .error .DuplicateTimestamp := by
  exact ⟨rfl, rfl, rfl⟩

theorem getD_eq_getElem_of_lt (ds : List ℕ) (i : ℕ) (hi : i < ds.length) :
    ds.getD i 0 = ds[i] := by
  rw [List.getD_eq_getElem?_getD, List.getElem?_eq_getElem hi]
  rfl

theorem getD_mem_of_lt (ds : List ℕ) (i : ℕ) (hi : i < ds.length) :
    ds.getD i 0 ∈ ds := by
  rw [getD_eq_getElem_of_lt ds i hi]
  exact List.getElem_mem hi

theorem take_count_lt (ds : List ℕ) (i : ℕ) (hi : i < ds.length) :
    (ds.take i).count (ds.getD i 0) < ds.count (ds.getD i 0) := by
  rw [getD_eq_getElem_of_lt ds i hi]
  have hsplit : ds.take i ++ ds.drop i = ds := List.take_append_drop i ds
  have hdrop : ds.drop i = ds[i] :: ds.drop (i + 1) := List.drop_eq_getElem_cons hi
  calc (ds.take i).count ds[i]
      < (ds.take i).count ds[i] + (ds.drop i).count ds[i] := by
        rw [hdrop, List.count_cons_self]; omega
    _ = ds.count ds[i] := by rw [← List.count_append, hsplit]

theorem take_count_succ_le (ds : List ℕ) (i j : ℕ) (hij : i < j) (hi : i < ds.length) :
    (ds.take i).count (ds.getD i 0) < (ds.take j).count (ds.getD i 0) := by
  rw [getD_eq_getElem_of_lt ds i hi]
  have h1 : ds.take (i + 1) = ds.take i ++ [ds[i]] := by
    rw [List.take_succ, List.getElem?_eq_getElem hi]
    rfl
  have h2 : (ds.take (i + 1)).count ds[i] = (ds.take i).count ds[i] + 1 := by
    rw [h1, List.count_append, List.count_singleton]
    simp
  have h3 : List.Sublist (ds.take (i + 1)) (ds.take j) := by
    have he : ds.take (i + 1) = (ds.take j).take (i + 1) := by
      rw [List.take_take, min_eq_left hij]
    rw [he]
    exact List.take_sublist _ _
  have h4 := h3.count_le ds[i]
  omega

theorem count_le_day_count (ds : List ℕ) (d : ℕ) (_hd : d ∈ ds) :
    ds.count d ≤ ds.countP (fun x => dayOf x == dayOf d) := by
  rw [List.count_eq_countP]
  apply List.countP_mono_left
  intro x _ hx
  have : x = d := by simpa using hx
  simp [this]

theorem take_count_le_23 (ds : List ℕ) (hcap : maxPerDay ds 24)
    (i : ℕ) (hi : i < ds.length) :
    (ds.take i).count (ds.getD i 0) ≤ 23 := by
  have h1 := take_count_lt ds i hi
  have h2 := count_le_day_count ds (ds.getD i 0) (getD_mem_of_lt ds i hi)
  have h3 := hcap (ds.getD i 0) (getD_mem_of_lt ds i hi)
  omega

theorem dedupDates_length (ds : List ℕ) : (dedupDates ds).length = ds.length := by
  simp [dedupDates]

theorem dedupDates_getD (ds : List ℕ) (i : ℕ) (hi : i < ds.length) :
    (dedupDates ds).getD i 0 =
      ds.getD i 0 + HOUR * (ds.take i).count (ds.getD i 0) := by
  have hlen : i < (dedupDates ds).length := by rwa [dedupDates_length]
  rw [getD_eq_getElem_of_lt _ i hlen]
  unfold dedupDates
  rw [List.getElem_map, List.getElem_range]
  by_cases hc : 2 ≤ ds.count (ds.getD i 0)
  · rw [if_pos hc]
  · rw [if_neg hc]
    have h1 := take_count_lt ds i hi
    have h2 : (ds.take i).count (ds.getD i 0) = 0 := by omega
    rw [h2]
    simp [HOUR]

/-- C4 (amended): for inputs whose timestamps are at calendar-day
resolution (every timestamp is a midnight, as the spreadsheet's parsed
dates are) with at most 24 records per calendar day, the Deduplicator
succeeds, its output timestamps are pairwise distinct over the whole
record set, and each day's relative record order is preserved; the
uniqueness invariant is re-verified over the whole set by construction
of `dedup`, which fails with `DuplicateTimestamp` whenever it does not
hold. -/
theorem dedup_day_resolution_ok (ds : List ℕ)
    (hal : ∀ d ∈ ds, DAY ∣ d) (hcap : maxPerDay ds 24) :
    dedup ds = .ok (dedupDates ds) ∧ (dedupDates ds).Nodup ∧
      sameDayOrder ds (dedupDates ds) := by
  have hne : ∀ i j : ℕ, i < j → j < ds.length →
      (dedupDates ds).getD i 0 ≠ (dedupDates ds).getD j 0 := by
    intro i j hij hj
    have hi : i < ds.length := lt_trans hij hj
    rw [dedupDates_getD ds i hi, dedupDates_getD ds j hj]
    have hci : (ds.take i).count (ds.getD i 0) ≤ 23 := take_count_le_23 ds hcap i hi
    have hcj : (ds.take j).count (ds.getD j 0) ≤ 23 := take_count_le_23 ds hcap j hj
    by_cases hd : ds.getD i 0 = ds.getD j 0
    · have hmono := take_count_succ_le ds i j hij hi
      rw [hd] at hmono ⊢
      simp only [HOUR]
      omega
    · obtain ⟨qi, hqi⟩ := hal _ (getD_mem_of_lt ds i hi)
      obtain ⟨qj, hqj⟩ := hal _ (getD_mem_of_lt ds j hj)
      simp only [DAY, HOUR] at hqi hqj
      simp only [HOUR]
      omega
  have hnodup : (dedupDates ds).Nodup := by
    rw [List.Nodup, List.pairwise_iff_getElem]
    intro i j hi hj hij
    have hj' : j < ds.length := by rwa [dedupDates_length] at hj
    have h := hne i j hij hj'
    rwa [getD_eq_getElem_of_lt _ i hi, getD_eq_getElem_of_lt _ j hj] at h
  have horder : sameDayOrder ds (dedupDates ds) := by
    intro i j hij hj hday
    have hi : i < ds.length := lt_trans hij hj
    have hdi : ds.getD i 0 = ds.getD j 0 := by
      obtain ⟨qi, hqi⟩ := hal _ (getD_mem_of_lt ds i hi)
      obtain ⟨qj, hqj⟩ := hal _ (getD_mem_of_lt ds j hj)
      simp only [dayOf, DAY, HOUR] at hday hqi hqj
      omega
    rw [dedupDates_getD ds i hi, dedupDates_getD ds j hj, hdi]
    have hmono := take_count_succ_le ds i j hij hi
    rw [hdi] at hmono
    simp only [HOUR]
    omega
  refine ⟨?_, hnodup, horder⟩
  unfold dedup
  rw [if_pos hnodup]

/-- C4 (counterexample): the unconditional claim fails for inputs with
sub-day timestamps, which the data model admits (second-or-finer
resolution).  Three same-day records at minutes `0, 0, 30` (at most 24
on the day) are deduplicated to `0, 60, 30`: the duplicated pair at
minute 0 receives hourly offsets and the second record jumps past the
record at minute 30, so the day's relative order is not preserved even
though the run's length is within capacity and the output passes the
uniqueness assertion. -/
theorem dedup_subday_order_cex :
    maxPerDay [0, 0, 30] 24 ∧
    dedup [0, 0, 30] = .ok [0, 60, 30] ∧
    ¬ sameDayOrder [0, 0, 30] [0, 60, 30] := by
  refine ⟨by decide, rfl, ?_⟩
  intro h
  have h12 := h 1 2 (by omega) (by decide) (by decide)
  exact absurd h12 (by decide)

/-- Witness for the amended C4 statement: two records at the midnight
of day 0 and one at the midnight of day 1. -/
theorem dedup_day_resolution_ok_witness :
    dedup [0, 0, DAY] = .ok (dedupDates [0, 0, DAY]) ∧
    (dedupDates [0, 0, DAY]).Nodup ∧
    sameDayOrder [0, 0, DAY] (dedupDates [0, 0, DAY]) :=
  dedup_day_resolution_ok [0, 0, DAY] (by decide) (by decide)

/-! ## Claim theorems: resampling grid -/

theorem foldl_min_le_init (x : ℕ) (xs : List ℕ) : xs.foldl min x ≤ x := by
  induction xs generalizing x with
  | nil => exact le_refl x
  | cons y ys ih => exact le_trans (ih (min x y)) (min_le_left x y)

theorem init_le_foldl_max (x : ℕ) (xs : List ℕ) : x ≤ xs.foldl max x := by
  induction xs generalizing x with
  | nil => exact le_refl x
  | cons y ys ih => exact le_trans (le_max_left x y) (ih (max x y))

theorem listMin_le_listMax (ds : List ℕ) (h : ds ≠ []) : listMin ds ≤ listMax ds := by
  cases ds with
  | nil => exact absurd rfl h
  | cons x xs =>
    exact le_trans (foldl_min_le_init x xs) (init_le_foldl_max x xs)

theorem interpGridFrom_spec (t0 t1 : ℕ) (h01 : t0 ≤ t1) (hdiv : HOUR ∣ (t1 - t0)) :
    (interpGridFrom t0 t1).head? = some t0 ∧
    List.Chain' (fun a b => b = a + HOUR) (interpGridFrom t0 t1) ∧
    (interpGridFrom t0 t1).getLast? = some t1 := by
  unfold interpGridFrom
  refine ⟨?_, ?_, ?_⟩
  · rw [List.head?_map, List.range_succ_eq_map]
    simp
  · rw [List.chain'_map, List.chain'_range_succ]
    intro m _
    simp only [HOUR, Nat.succ_eq_add_one]
    ring
  · rw [List.getLast?_eq_getElem?]
    have hlen : ((List.range ((t1 - t0) / HOUR + 1)).map
        fun i => t0 + HOUR * i).length = (t1 - t0) / HOUR + 1 := by simp
    rw [hlen]
    have hk : (t1 - t0) / HOUR + 1 - 1 < ((List.range ((t1 - t0) / HOUR + 1)).map
        fun i => t0 + HOUR * i).length := by
      rw [hlen]
      simp only [HOUR]
      omega
    rw [List.getElem?_eq_getElem hk, List.getElem_map, List.getElem_range]
    have : HOUR * ((t1 - t0) / HOUR + 1 - 1) = t1 - t0 := by
      rw [Nat.add_sub_cancel, Nat.mul_div_cancel' hdiv]
    rw [this, Nat.add_sub_cancel' h01]

/-- C6 (counterexample): for a deduplicated record set whose span is
not a whole number of hours the grid's last timestamp falls short of
the input's maximum: records at minutes 30 and 120 give the grid
`[30, 90]` whose last point 90 is strictly below the maximum 120,
contradicting `tN >= max(timestamp)`. -/
theorem interpGrid_no_bracket_cex :
    interpGrid [30, 120] = [30, 90] ∧
    listMax [30, 120] = 120 ∧
    ¬ listMax [30, 120] ≤ (interpGrid [30, 120]).getLastD 0 := by
  refine ⟨rfl, rfl, ?_⟩
  decide

/-- C6 (amended): for every non-empty deduplicated record set the grid
starts exactly at `t0 = min(timestamp)` and advances in fixed steps of
one hour; whenever the span `max - min` is a whole number of hours (as
it always is for hour-aligned timestamps, e.g. the Deduplicator's
output on day-resolution input) the last grid point equals
`max(timestamp)`, so the grid brackets the input's min and max.
Otherwise the last point falls short of the maximum by less than one
step (`pd.date_range` never exceeds its `end` argument). -/
theorem interpGrid_brackets (ds : List ℕ) (hne : ds ≠ [])
    (hdiv : HOUR ∣ (listMax ds - listMin ds)) :
    (interpGrid ds).head? = some (listMin ds) ∧
    List.Chain' (fun a b => b = a + HOUR) (interpGrid ds) ∧
    (interpGrid ds).getLast? = some (listMax ds) :=
  interpGridFrom_spec (listMin ds) (listMax ds) (listMin_le_listMax ds hne) hdiv

/-- Witness for the amended C6 statement at records one day apart. -/
theorem interpGrid_brackets_witness :
    (interpGrid [0, 120]).head? = some (listMin [0, 120]) ∧
    List.Chain' (fun a b => b = a + HOUR) (interpGrid [0, 120]) ∧
    (interpGrid [0, 120]).getLast? = some (listMax [0, 120]) :=
  interpGrid_brackets [0, 120] (by decide) (by decide)

/-! ## Claim theorems: interpolation -/

theorem chain'_fst_le_get (l : List (ℚ × ℚ))
    (hc : List.Chain' (fun p q : ℚ × ℚ => p.1 < q.1) l)
    (j : ℕ) (hj : j < l.length) (h0 : 0 < l.length) :
    (l.get ⟨0, h0⟩).1 ≤ (l.get ⟨j, hj⟩).1 := by
  induction l generalizing j with
  | nil => simp at hj
  | cons p tail ih =>
    cases j with
    | zero => exact le_refl _
    | succ k =>
      have htl : k < tail.length := by simpa using hj
      have h0t : 0 < tail.length := lt_of_le_of_lt (Nat.zero_le k) htl
      cases tail with
      | nil => simp at htl
      | cons q rest =>
        have hpq : p.1 < q.1 := (List.chain'_cons.mp hc).1
        have hrec := ih (List.chain'_cons.mp hc).2 k htl h0t
        exact le_trans (le_of_lt hpq) hrec

/-- C7: piecewise-linear interpolation in the manner of `np.interp` is
exact at input abscissas — evaluating at the i-th node of a strictly
increasing point list reproduces the i-th ordinate, so resampling at a
grid point that coincides with an input record's timestamp reproduces
that record's value. -/
theorem npInterp_exact (ps : List (ℚ × ℚ))
    (hs : List.Chain' (fun p q : ℚ × ℚ => p.1 < q.1) ps)
    (i : ℕ) (hi : i < ps.length) :
    npInterp (ps.get ⟨i, hi⟩).1 ps = (ps.get ⟨i, hi⟩).2 := by
  induction ps generalizing i with
  | nil => simp at hi
  | cons p tail ih =>
    rcases p with ⟨x0, y0⟩
    cases tail with
    | nil =>
      obtain rfl : i = 0 := by simp at hi; omega
      rfl
    | cons q rest =>
      rcases q with ⟨x1, y1⟩
      have h01 : x0 < x1 := (List.chain'_cons.mp hs).1
      have hs' := (List.chain'_cons.mp hs).2
      cases i with
      | zero =>
        show npInterp x0 ((x0, y0) :: (x1, y1) :: rest) = y0
        rw [npInterp, if_neg (lt_irrefl x0), if_pos h01, sub_self, mul_zero,
          zero_div, add_zero]
      | succ j =>
        have hj : j < ((x1, y1) :: rest).length := by simpa using hi
        have hx1 : x1 ≤ ((((x1, y1) : ℚ × ℚ) :: rest).get ⟨j, hj⟩).1 :=
          chain'_fst_le_get _ hs' j hj (by simp)
        show npInterp ((((x1, y1) : ℚ × ℚ) :: rest).get ⟨j, hj⟩).1
            ((x0, y0) :: (x1, y1) :: rest) = ((((x1, y1) : ℚ × ℚ) :: rest).get ⟨j, hj⟩).2
        rw [npInterp, if_neg (not_lt.mpr (le_of_lt (lt_of_lt_of_le h01 hx1))),
          if_neg (not_lt.mpr hx1)]
        exact ih hs' j hj

/-- Witness for C7: interpolating at the middle node of a three-point
series returns that node's ordinate. -/
theorem npInterp_exact_witness :
    npInterp 60 [((0 : ℚ), (5 : ℚ)), (60, 7), (120, 4)] = 7 := by
  have h := npInterp_exact [((0 : ℚ), (5 : ℚ)), (60, 7), (120, 4)]
    (by norm_num [List.chain'_cons]) 1 (by norm_num)
  simpa using h

/-! ## Claim theorems: dual-band filter -/

/-- C5: zero-phase filtering with coefficient lists of an order-2
design (numerator and denominator of length `FILT_ORDER + 1 = 3`, as
`butter(2, wn)` returns) fails with `SeriesTooShort` on every series
whose length is at most `3 * (FILT_ORDER + 1) = 9`, the required
minimum being a function of the fixed filter order; in particular a
length-1 series fails rather than producing a degenerate result. -/
theorem filtfilt_short_series (b a x : List ℚ)
    (hb : b.length = FILT_ORDER + 1) (ha : a.length = FILT_ORDER + 1)
    (hx : x.length ≤ 3 * (FILT_ORDER + 1)) :
    filtfilt b a x = .error .SeriesTooShort := by
  unfold filtfilt
  rw [hb, ha, max_self]
  rw [if_pos hx]

/-- Witness for C5: a length-1 series with concrete rational order-2
coefficient lists raises `SeriesTooShort`. -/
theorem filtfilt_short_series_witness :
    filtfilt [1/4, 1/2, 1/4] [1, -3/2, 3/5] [0] = .error .SeriesTooShort :=
  filtfilt_short_series [1/4, 1/2, 1/4] [1, -3/2, 3/5] [0] rfl rfl
    (by norm_num [FILT_ORDER])
